import Mathlib

/-!
# OVERWATCH — verification of the ETL pipeline and analytics layer

A shallow embedding, in Lean 4, of the core of the OVERWATCH missing-persons
platform: the worker's fingerprint/deduplication/upsert path
(`apps/worker/src/utils/validators.ts`, `apps/worker/src/services/databaseService.ts`,
`apps/worker/src/transformer/transformer.ts`, `apps/worker/src/index.ts`,
`apps/worker/src/utils/httpClient.ts`) and the server's analytics aggregations
(`apps/server/src/routes/analytics.ts`).

Conventions of the embedding:
* JavaScript numbers are modelled as `ℚ` (for data values) or `Nat`/`Int`
  (for counters and machine words); `NaN`/`Infinity` do not arise on the
  verified paths and are not modelled.
* A JavaScript `Date` (at UTC midnight, which is what the worker constructs)
  is modelled as its day number relative to the Unix epoch (`Int`), with
  calendar conversions following the proleptic Gregorian calendar exactly as
  the ECMAScript `MakeDay` specification does.  Time-of-day is irrelevant to
  every claim and is fixed at midnight.
* Fallible storage/network calls are driven by explicit oracles
  (`DbFail` flags / attempt outcome lists), and a thrown exception is the
  corresponding `error`/failure branch.
-/

/-! ## Calendar arithmetic (ECMAScript `MakeDay` / proleptic Gregorian)

`daysFromCivil`/`civilFromDays` are the standard civil-calendar conversions
(days counted from 1970-01-01).  `jsMakeDay` is ECMAScript `MakeDay`: the
month may be any integer and overflowing months/days roll over into adjacent
months and years, never producing an invalid date.  `jsDateCtorDays` adds the
`Date(year, month, day)` constructor's mapping of two-digit years to 19xx. -/

def daysFromCivil (y m d : Int) : Int :=
  let y2 : Int := if m ≤ 2 then y - 1 else y
  let era : Int := y2.fdiv 400
  let yoe : Int := y2 - era * 400
  let mp : Int := (m + 9).emod 12
  let doy : Int := (153 * mp + 2).ediv 5 + d - 1
  let doe : Int := yoe * 365 + yoe.ediv 4 - yoe.ediv 100 + doy
  era * 146097 + doe - 719468

def civilFromDays (z : Int) : Int × Int × Int :=
  let z2 : Int := z + 719468
  let era : Int := z2.fdiv 146097
  let doe : Int := z2 - era * 146097
  let yoe : Int := (doe - doe.ediv 1460 + doe.ediv 36524 - doe.ediv 146096).ediv 365
  let y : Int := yoe + era * 400
  let doy : Int := doe - (365 * yoe + yoe.ediv 4 - yoe.ediv 100)
  let mp : Int := (5 * doy + 2).ediv 153
  let d : Int := doy - (153 * mp + 2).ediv 5 + 1
  let m : Int := mp + (if mp < 10 then 3 else -9)
  (if m ≤ 2 then y + 1 else y, m, d)

/-- ECMAScript `MakeDay(year, month, day)`: `month` is 0-based and arbitrary;
out-of-range months and days roll over (no invalid dates are produced). -/
def jsMakeDay (year month0 day : Int) : Int :=
  let ym : Int := year * 12 + month0
  let y : Int := ym.ediv 12
  let m : Int := ym.emod 12
  daysFromCivil y (m + 1) 1 + (day - 1)

/-- `new Date(year, month, day)`: years 0–99 are interpreted as 1900–1999. -/
def jsDateCtorDays (y m0 d : Int) : Int :=
  jsMakeDay (if 0 ≤ y ∧ y ≤ 99 then y + 1900 else y) m0 d

def isLeapYear (y : Int) : Bool :=
  (y.emod 4 = 0 ∧ y.emod 100 ≠ 0) ∨ y.emod 400 = 0

def daysInMonth (m y : Int) : Int :=
  if m = 2 then (if isLeapYear y then 29 else 28)
  else if m = 4 ∨ m = 6 ∨ m = 9 ∨ m = 11 then 30
  else 31

/-- Spec-side definition ("resolves to a valid calendar date"): day/month/year
name a date that actually exists on the Gregorian calendar.  Used only to
compare the code's behaviour against the specification's wording. -/
def isRealCalendarDate (d m y : Int) : Bool :=
  1 ≤ m ∧ m ≤ 12 ∧ 1 ≤ d ∧ d ≤ daysInMonth m y

def weekdayNames : List String :=
  ["Sun", "Mon", "Tue", "Wed", "Thu", "Fri", "Sat"]

def monthShortNames : List String :=
  ["Jan", "Feb", "Mar", "Apr", "May", "Jun",
   "Jul", "Aug", "Sep", "Oct", "Nov", "Dec"]

def monthLongNames : List String :=
  ["january", "february", "march", "april", "may", "june",
   "july", "august", "september", "october", "november", "december"]

def pad2 (n : Int) : String :=
  if n < 10 then "0" ++ toString n else toString n

/-- `Date.prototype.toString()` for a UTC-midnight date on a UTC host:
`"Thu Feb 15 2026 00:00:00 GMT+0000 (Coordinated Universal Time)"`.
This is the stringification that the template literal in `generateDataHash`
applies to `person.lastSeenDate`. -/
def jsDateToString (z : Int) : String :=
  let c := civilFromDays z
  let wd := (weekdayNames.getD ((z + 4).emod 7).toNat "Sun")
  let mo := (monthShortNames.getD (c.2.1 - 1).toNat "Jan")
  wd ++ " " ++ mo ++ " " ++ pad2 c.2.2 ++ " " ++ toString c.1 ++
    " 00:00:00 GMT+0000 (Coordinated Universal Time)"

/-! ## Rounding primitives

MongoDB's `$round` rounds half to even; JavaScript's `Number.prototype.toFixed`
rounds to the nearest representable value, ties picking the larger candidate
(round half up, for the non-negative values that occur here). -/

/-- MongoDB `$round [x, 0]`: round half to even. -/
def halfEvenRound (q : ℚ) : ℤ :=
  let f : ℤ := ⌊q⌋
  let r : ℚ := q - f
  if r < 1/2 then f
  else if 1/2 < r then f + 1
  else if Even f then f else f + 1

/-- MongoDB `$round [x, 1]`. -/
def mongoRound1 (q : ℚ) : ℚ := (halfEvenRound (q * 10) : ℚ) / 10

/-- MongoDB `$round [x, 2]`. -/
def mongoRound2 (q : ℚ) : ℚ := (halfEvenRound (q * 100) : ℚ) / 100

/-- JavaScript `x.toFixed(2)` (ties to the larger candidate), as the exact
rational it denotes. -/
def toFixed2 (q : ℚ) : ℚ := (⌊q * 100 + 1/2⌋ : ℚ) / 100

/-- JavaScript `x.toFixed(1)`. -/
def toFixed1 (q : ℚ) : ℚ := (⌊q * 10 + 1/2⌋ : ℚ) / 10

/-! ## SHA-256 (`crypto.createHash('sha256')`)

A byte-level implementation of FIPS 180-4 SHA-256 over `List Nat`
(each entry a byte), with 32-bit words as `Nat` reduced mod `2 ^ 32`. -/

def w32 (n : Nat) : Nat := n % 4294967296

def rotr32 (n x : Nat) : Nat := w32 ((x >>> n) ||| (x <<< (32 - n)))

def shaCh (x y z : Nat) : Nat := (x &&& y) ^^^ ((x ^^^ 4294967295) &&& z)

def shaMaj (x y z : Nat) : Nat := (x &&& y) ^^^ (x &&& z) ^^^ (y &&& z)

def shaBigSigma0 (x : Nat) : Nat := rotr32 2 x ^^^ rotr32 13 x ^^^ rotr32 22 x

def shaBigSigma1 (x : Nat) : Nat := rotr32 6 x ^^^ rotr32 11 x ^^^ rotr32 25 x

def shaSmallSigma0 (x : Nat) : Nat := rotr32 7 x ^^^ rotr32 18 x ^^^ (x >>> 3)

def shaSmallSigma1 (x : Nat) : Nat := rotr32 17 x ^^^ rotr32 19 x ^^^ (x >>> 10)

def sha256K : List Nat :=
  [1116352408, 1899447441, 3049323471, 3921009573, 961987163, 1508970993,
   2453635748, 2870763221, 3624381080, 310598401, 607225278, 1426881987,
   1925078388, 2162078206, 2614888103, 3248222580, 3835390401, 4022224774,
   264347078, 604807628, 770255983, 1249150122, 1555081692, 1996064986,
   2554220882, 2821834349, 2952996808, 3210313671, 3336571891, 3584528711,
   113926993, 338241895, 666307205, 773529912, 1294757372, 1396182291,
   1695183700, 1986661051, 2177026350, 2456956037, 2730485921, 2820302411,
   3259730800, 3345764771, 3516065817, 3600352804, 4094571909, 275423344,
   430227734, 506948616, 659060556, 883997877, 958139571, 1322822218,
   1537002063, 1747873779, 1955562222, 2024104815, 2227730452, 2361852424,
   2428436474, 2756734187, 3204031479, 3329325298]

structure Sha8 where
  a : Nat
  b : Nat
  c : Nat
  d : Nat
  e : Nat
  f : Nat
  g : Nat
  h : Nat
deriving Repr, DecidableEq

def sha256InitH : Sha8 :=
  ⟨1779033703, 3144134277, 1013904242, 2773480762,
   1359893119, 2600822924, 528734635, 1541459225⟩

/-- Big-endian byte encoding of `v` on `n` bytes. -/
def toBytesBE (n v : Nat) : List Nat :=
  (List.range n).map (fun i => (v >>> (8 * (n - 1 - i))) &&& 255)

/-- The 16 initial 32-bit words of a 64-byte block (big-endian). -/
def blockWords (block : List Nat) : List Nat :=
  (List.range 16).map (fun i =>
    (block.getD (4 * i) 0) <<< 24 ||| (block.getD (4 * i + 1) 0) <<< 16 |||
    (block.getD (4 * i + 2) 0) <<< 8 ||| block.getD (4 * i + 3) 0)

/-- One extension step of the message schedule, on the reversed word list. -/
def schedStep (rev : List Nat) : List Nat :=
  w32 (rev.getD 15 0 + shaSmallSigma0 (rev.getD 14 0) +
       rev.getD 6 0 + shaSmallSigma1 (rev.getD 1 0)) :: rev

def messageSchedule (block : List Nat) : List Nat :=
  (Nat.repeat schedStep 48 (blockWords block).reverse).reverse

def shaRound (st : Sha8) (kw : Nat × Nat) : Sha8 :=
  let t1 := w32 (st.h + shaBigSigma1 st.e + shaCh st.e st.f st.g + kw.1 + kw.2)
  let t2 := w32 (shaBigSigma0 st.a + shaMaj st.a st.b st.c)
  ⟨w32 (t1 + t2), st.a, st.b, st.c, w32 (st.d + t1), st.e, st.f, st.g⟩

def compressBlock (st : Sha8) (block : List Nat) : Sha8 :=
  let fin := (sha256K.zip (messageSchedule block)).foldl shaRound st
  ⟨w32 (st.a + fin.a), w32 (st.b + fin.b), w32 (st.c + fin.c), w32 (st.d + fin.d),
   w32 (st.e + fin.e), w32 (st.f + fin.f), w32 (st.g + fin.g), w32 (st.h + fin.h)⟩

/-- SHA-256 padding: `0x80`, zeros to 56 mod 64, then the 64-bit bit length. -/
def padMessage (msg : List Nat) : List Nat :=
  msg ++ [128] ++ List.replicate ((119 - msg.length % 64) % 64) 0 ++
    toBytesBE 8 (msg.length * 8)

def chunks64 : List Nat → List (List Nat)
  | [] => []
  | x :: rest => (x :: rest).take 64 :: chunks64 ((x :: rest).drop 64)
termination_by l => l.length
decreasing_by
  simp only [List.length_drop, List.length_cons]
  omega

/-- SHA-256 digest (32 bytes) of a byte list. -/
def sha256 (msg : List Nat) : List Nat :=
  let fin := (chunks64 (padMessage msg)).foldl compressBlock sha256InitH
  ([fin.a, fin.b, fin.c, fin.d, fin.e, fin.f, fin.g, fin.h].map (toBytesBE 4)).flatten

def hexDigit (n : Nat) : Char :=
  if n < 10 then Char.ofNat (48 + n) else Char.ofNat (87 + n)

def bytesToHex (l : List Nat) : String :=
  ⟨(l.map (fun b => [hexDigit (b / 16), hexDigit (b % 16)])).flatten⟩

/-- UTF-8 encoding of one Unicode code point. -/
def utf8Bytes (c : Char) : List Nat :=
  let n := c.toNat
  if n < 128 then [n]
  else if n < 2048 then [192 + n / 64, 128 + n % 64]
  else if n < 65536 then [224 + n / 4096, 128 + (n / 64) % 64, 128 + n % 64]
  else [240 + n / 262144, 128 + (n / 4096) % 64, 128 + (n / 64) % 64, 128 + n % 64]

def utf8Encode (s : String) : List Nat :=
  (s.data.map utf8Bytes).flatten

/-- `createHash('sha256').update(s).digest('hex')`. -/
def sha256Hex (s : String) : String :=
  bytesToHex (sha256 (utf8Encode s))

/-! ## Data model (`packages/shared/src/types.ts`, worker models)

`Status`/`Gender` mirror the `MissingPersonStatus`/`Gender` string enums.
`MissingPerson` is the canonical validated record; `Candidate` is
`Partial<MissingPerson>`, the loose extractor output in which every field may
be absent (`none` also stands for a value of the wrong runtime type, which
`typeof` checks reject identically). -/

inductive Status where
  | missing
  | found
deriving Repr, DecidableEq

inductive Gender where
  | male
  | female
  | other
deriving Repr, DecidableEq

def Gender.toText : Gender → String
  | .male => "male"
  | .female => "female"
  | .other => "other"

structure MissingPerson where
  name : String
  age : ℚ
  gender : Gender
  lastSeenDate : Int
  lastKnownLocation : String
  lonCoord : ℚ
  latCoord : ℚ
  status : Status
  description : Option String
  sourceURL : String
  sourceState : String
  dataHash : String
deriving Repr, DecidableEq

/-- `Partial<MissingPerson>`: the candidate-record shape emitted by the
extractors, before validation.  `gender` is kept as the raw string that the
`includes` check inspects; `none` models both `undefined` and a value of a
non-conforming runtime type. -/
structure Candidate where
  name : Option String
  age : Option ℚ
  gender : Option String
  lastSeenDate : Option Int
  lastKnownLocation : Option String
  lonCoord : Option ℚ
  latCoord : Option ℚ
  status : Option Status
  description : Option String
  sourceURL : Option String
  sourceState : Option String
  dataHash : Option String
deriving Repr, DecidableEq

/-- The unchecked `record as MissingPerson` cast the transformer applies to a
candidate that passed validation (validated fields are then all present). -/
def Candidate.asPerson (c : Candidate) : MissingPerson :=
  { name := c.name.getD ""
    age := c.age.getD 0
    gender := if c.gender = some "male" then .male
              else if c.gender = some "female" then .female else .other
    lastSeenDate := c.lastSeenDate.getD 0
    lastKnownLocation := c.lastKnownLocation.getD ""
    lonCoord := c.lonCoord.getD 0
    latCoord := c.latCoord.getD 0
    status := c.status.getD .missing
    description := c.description
    sourceURL := c.sourceURL.getD ""
    sourceState := c.sourceState.getD ""
    dataHash := c.dataHash.getD "" }

/-! ## `generateDataHash` (`apps/worker/src/utils/validators.ts`) -/

/-- The template literal
`` `${person.name}-${person.lastSeenDate}-${person.sourceURL}` ``:
the `Date` field is stringified by `Date.prototype.toString()`. -/
def identifierString (name : String) (lastSeenDate : Int) (sourceURL : String) : String :=
  name ++ "-" ++ jsDateToString lastSeenDate ++ "-" ++ sourceURL

/-- `generateDataHash(person)`: SHA-256 hex digest of the identifier string
built from exactly `name`, `lastSeenDate` and `sourceURL`. -/
def generateDataHash (name : String) (lastSeenDate : Int) (sourceURL : String) : String :=
  sha256Hex (identifierString name lastSeenDate sourceURL)

/-- The hash the scrapers attach to a full record
(`dataHash: generateDataHash({ name, lastSeenDate, sourceURL })`). -/
def MissingPerson.hashOf (p : MissingPerson) : String :=
  generateDataHash p.name p.lastSeenDate p.sourceURL

/-! ## Text and date parsing (`apps/worker/src/utils/validators.ts`) -/

/-- JavaScript `\s` on the characters that occur in scraped text. -/
def isJsSpace (c : Char) : Bool :=
  c = ' ' ∨ c = '\t' ∨ c = '\n' ∨ c = '\r' ∨ c = '\x0b' ∨ c = '\x0c'

/-- Collapse every maximal run of whitespace to a single space (the effect of
`replace(/\s+/g, ' ')`), tracking whether the previous character was part of
a run. -/
def collapseAux (prevSpace : Bool) : List Char → List Char
  | [] => []
  | c :: rest =>
    if isJsSpace c then
      if prevSpace then collapseAux true rest
      else ' ' :: collapseAux true rest
    else c :: collapseAux false rest

def collapseSpaces (l : List Char) : List Char := collapseAux false l

/-- `normalizeText`: `text.trim().replace(/\s+/g, ' ')`. -/
def normalizeText (s : String) : String :=
  ⟨collapseSpaces (((s.data.dropWhile isJsSpace).reverse.dropWhile isJsSpace).reverse)⟩

def digitVal (c : Char) : Option Nat :=
  if '0' ≤ c ∧ c ≤ '9' then some (c.toNat - 48) else none

def isAsciiLetter (c : Char) : Bool :=
  ('a' ≤ c ∧ c ≤ 'z') ∨ ('A' ≤ c ∧ c ≤ 'Z')

/-- `\d{1,2}` with the greedy/backtracking semantics of the JS engine: try the
two-digit reading first, fall back to one digit. -/
def matchNum2or1 {α : Type} (l : List Char) (k : Nat → List Char → Option α) : Option α :=
  match l with
  | [] => none
  | [c1] => (digitVal c1).bind (fun d => k d [])
  | c1 :: c2 :: rest =>
    match digitVal c1, digitVal c2 with
    | some d1, some d2 => (k (10 * d1 + d2) rest).orElse (fun _ => k d1 (c2 :: rest))
    | some d1, none => k d1 (c2 :: rest)
    | none, _ => none

/-- `[-\/]`. -/
def matchSep {α : Type} (l : List Char) (k : List Char → Option α) : Option α :=
  match l with
  | c :: rest => if c = '-' ∨ c = '/' then k rest else none
  | [] => none

/-- `(\d{4})`, unanchored to the right. -/
def matchYear4 {α : Type} (l : List Char) (k : Nat → Option α) : Option α :=
  match l with
  | c1 :: c2 :: c3 :: c4 :: _ =>
    match digitVal c1, digitVal c2, digitVal c3, digitVal c4 with
    | some a, some b, some c, some d => k (1000 * a + 100 * b + 10 * c + d)
    | _, _, _, _ => none
  | _ => none

/-- `\s+`. -/
def matchSpaces1 {α : Type} (l : List Char) (k : List Char → Option α) : Option α :=
  match l with
  | c :: rest => if isJsSpace c then k (rest.dropWhile isJsSpace) else none
  | [] => none

/-- `([A-Za-z]+)`. -/
def matchWord1 {α : Type} (l : List Char) (k : List Char → List Char → Option α) : Option α :=
  match l with
  | c :: rest =>
    if isAsciiLetter c then k (c :: rest.takeWhile isAsciiLetter) (rest.dropWhile isAsciiLetter)
    else none
  | [] => none

/-- A match of `/(\d{1,2})[-\/](\d{1,2})[-\/](\d{4})/` starting at the head of
the list. -/
def matchDMYAt (l : List Char) : Option (Nat × Nat × Nat) :=
  matchNum2or1 l (fun day l1 =>
    matchSep l1 (fun l2 =>
      matchNum2or1 l2 (fun monthNum l3 =>
        matchSep l3 (fun l4 =>
          matchYear4 l4 (fun year => some (day, monthNum, year))))))

/-- A match of `/(\d{1,2})\s+([A-Za-z]+)\s+(\d{4})/` starting at the head. -/
def matchDMonYAt (l : List Char) : Option (Nat × List Char × Nat) :=
  matchNum2or1 l (fun day l1 =>
    matchSpaces1 l1 (fun l2 =>
      matchWord1 l2 (fun word l3 =>
        matchSpaces1 l3 (fun l4 =>
          matchYear4 l4 (fun year => some (day, word, year))))))

/-- Leftmost unanchored regex match: try every start position left to right. -/
def searchFrom {α : Type} (f : List Char → Option α) : List Char → Option α
  | [] => f []
  | c :: rest => (f (c :: rest)).orElse (fun _ => searchFrom f rest)

def firstDMYMatch (s : String) : Option (Nat × Nat × Nat) :=
  searchFrom matchDMYAt s.data

def firstDMonYMatch (s : String) : Option (Nat × List Char × Nat) :=
  searchFrom matchDMonYAt s.data

def toLowerList (l : List Char) : List Char := l.map Char.toLower

/-- Month-name lookup of the JS engine's date-string parser, restricted to the
documented short (3-letter) and long English month names, case-insensitively.
Modelled from the host `new Date(string)` parser, which is not part of the
repository. -/
def monthFromName (word : List Char) : Option Nat :=
  let w := toLowerList word
  match (monthLongNames.map String.data).indexOf? w with
  | some i => some (i + 1)
  | none => ((monthLongNames.map (fun n => n.data.take 3)).indexOf? w).map (· + 1)

/-- `new Date("<Month> <day>, <year>")` — the host parser accepts a recognized
month name with a day that exists in that month, producing the corresponding
UTC-midnight date, and yields an Invalid Date otherwise.  Modelled from the
host JS engine (not repository code). -/
def jsParseMonthNameDate (word : List Char) (day year : Nat) : Option Int :=
  match monthFromName word with
  | some m =>
    if 1 ≤ day ∧ (day : Int) ≤ daysInMonth m year then
      some (daysFromCivil year m day)
    else none
  | none => none

/-- `new Date(string)` generic fallback, restricted to the one format the
ECMAScript standard mandates (`YYYY-MM-DD`); other host-specific formats are
treated as unparseable.  Modelled from the ECMAScript date-time string
format, not repository code. -/
def jsGenericDateParse (s : String) : Option Int :=
  match s.data with
  | [y1, y2, y3, y4, h1, m1, m2, h2, d1, d2] =>
    match digitVal y1, digitVal y2, digitVal y3, digitVal y4,
          digitVal m1, digitVal m2, digitVal d1, digitVal d2 with
    | some a, some b, some c, some d, some e, some f, some g, some h =>
      if h1 = '-' ∧ h2 = '-' then
        let year : Nat := 1000 * a + 100 * b + 10 * c + d
        let mo : Nat := 10 * e + f
        let dy : Nat := 10 * g + h
        if 1 ≤ mo ∧ mo ≤ 12 ∧ 1 ≤ dy ∧ (dy : Int) ≤ daysInMonth mo year then
          some (daysFromCivil year mo dy)
        else none
      else none
    | _, _, _, _, _, _, _, _ => none
  | _ => none

/-- `parseIndianDate(dateString)`: normalize, then try the numeric
numeric `DD-MM-YYYY` / `DD/MM/YYYY` pattern (built with the rolling-over `Date(y, m-1, d)`
constructor and returned unconditionally), then the `DD MonthName YYYY`
pattern (returning `null` when the host parser yields an Invalid Date,
without falling through), then the generic `new Date(string)` fallback. -/
def parseIndianDate (dateString : String) : Option Int :=
  let normalized := normalizeText dateString
  match firstDMYMatch normalized with
  | some (day, monthNum, year) => some (jsDateCtorDays year ((monthNum : Int) - 1) day)
  | none =>
    match firstDMonYMatch normalized with
    | some (day, word, year) => jsParseMonthNameDate word day year
    | none => jsGenericDateParse normalized

/-! ## `validateExtractedData` and `DataTransformer.transform`
(`apps/worker/src/utils/validators.ts`, `apps/worker/src/transformer/transformer.ts`) -/

structure ValidationResult where
  valid : Bool
  errors : List String
deriving Repr, DecidableEq

/-- `validateExtractedData(data)`: the five independent field rules, with the
error strings pushed in source order.  `!person.name` is JavaScript
truthiness, so an empty string fails the name rule; `none` models an absent
field or one of the wrong runtime type. -/
def validateExtractedData (c : Candidate) : ValidationResult :=
  let errors :=
    (if c.name = none ∨ c.name = some "" then
      ["Name is required and must be a string"] else []) ++
    (match c.age with
     | none => ["Age must be a number between 0 and 150"]
     | some a => if a < 0 ∨ 150 < a then ["Age must be a number between 0 and 150"] else []) ++
    (if c.gender = some "male" ∨ c.gender = some "female" ∨ c.gender = some "other" then []
     else ["Gender must be male, female, or other"]) ++
    (if c.lastSeenDate = none then ["Last seen date must be a valid date"] else []) ++
    (if c.lastKnownLocation = none ∨ c.lastKnownLocation = some "" then
      ["Last known location is required"] else [])
  { valid := errors.isEmpty, errors := errors }

structure TransformResult where
  valid : List Candidate
  invalid : List (Candidate × List String)
deriving Repr, DecidableEq

/-- `DataTransformer.transform(rawRecords)`: partition the batch by
`validateExtractedData`, collecting each rejected record together with its
error list. -/
def DataTransformer.transform (rawRecords : List Candidate) : TransformResult :=
  rawRecords.foldl
    (fun acc record =>
      let validation := validateExtractedData record
      if validation.valid then { acc with valid := acc.valid ++ [record] }
      else { acc with invalid := acc.invalid ++ [(record, validation.errors)] })
    ⟨[], []⟩

/-! ## `DatabaseService.insertRecords`
(`apps/worker/src/services/databaseService.ts`)

The document store is a list of stored records (insertion order); `findOne`
is first-match lookup on `dataHash`, `updateOne` by `_id` updates the found
record in place.  Each of the three awaited storage calls may throw; the
`DbFail` oracle says which ones do.  A thrown call performs no write. -/

structure StoredRecord where
  person : MissingPerson
  createdAt : Int
  updatedAt : Int
deriving Repr, DecidableEq

/-- `MissingPersonModel.findOne({ dataHash })`. -/
def findByHash (db : List StoredRecord) (h : String) : Option StoredRecord :=
  db.find? (fun s => s.person.dataHash = h)

/-- `updateOne({ _id }, { status, updatedAt })` on the record `findOne`
returned: only `status` and `updatedAt` change. -/
def refreshStatus (s : StoredRecord) (st : Status) (now : Int) : StoredRecord :=
  { s with person := { s.person with status := st }, updatedAt := now }

def updateFirstByHash (db : List StoredRecord) (h : String) (st : Status)
    (now : Int) : List StoredRecord :=
  match db with
  | [] => []
  | s :: rest =>
    if s.person.dataHash = h then refreshStatus s st now :: rest
    else s :: updateFirstByHash rest h st now

/-- `MissingPersonModel.create(record)` (mongoose `timestamps: true`). -/
def createStored (r : MissingPerson) (now : Int) : StoredRecord :=
  { person := r, createdAt := now, updatedAt := now }

/-- Which awaited storage calls throw while this record is processed. -/
structure DbFail where
  atFind : Bool
  atUpdate : Bool
  atCreate : Bool
deriving Repr, DecidableEq

def noFail : DbFail := ⟨false, false, false⟩

structure BatchState where
  db : List StoredRecord
  inserted : Nat
  duplicates : Nat
  failures : Nat
deriving Repr, DecidableEq

def initBatch (db : List StoredRecord) : BatchState := ⟨db, 0, 0, 0⟩

/-- The loop body of `insertRecords` for one record.  Mirrors the source
order: on a duplicate, `duplicates++` happens before the conditional
`updateOne`, so a throw inside `updateOne` is caught after the duplicate was
already counted; a throw anywhere is caught, logged (counted in `failures`)
and the loop continues. -/
def processRecord (now : Int) (st : BatchState) (r : MissingPerson) (fl : DbFail) : BatchState :=
  if fl.atFind then { st with failures := st.failures + 1 }
  else
    match findByHash st.db r.dataHash with
    | some existing =>
      if r.status ≠ existing.person.status then
        if fl.atUpdate then
          { st with duplicates := st.duplicates + 1, failures := st.failures + 1 }
        else
          { st with duplicates := st.duplicates + 1,
                    db := updateFirstByHash st.db r.dataHash r.status now }
      else { st with duplicates := st.duplicates + 1 }
    | none =>
      if fl.atCreate then { st with failures := st.failures + 1 }
      else { st with inserted := st.inserted + 1, db := st.db ++ [createStored r now] }

/-- `DatabaseService.insertRecords(records, state)`: process the batch
strictly in order, one record at a time, against the evolving store. -/
def DatabaseService.insertRecords (now : Int) : List MissingPerson → List DbFail →
    BatchState → BatchState
  | [], _, st => st
  | r :: rs, fails, st =>
    DatabaseService.insertRecords now rs fails.tail
      (processRecord now st r (fails.headD noFail))

/-- `insertRecords` on a batch in which no storage call throws. -/
def DatabaseService.insertRecordsOk (now : Int) (records : List MissingPerson)
    (db : List StoredRecord) : BatchState :=
  DatabaseService.insertRecords now records (records.map (fun _ => noFail)) (initBatch db)

/-- The count of stored records carrying a given fingerprint. -/
def hashCount (db : List StoredRecord) (h : String) : Nat :=
  db.countP (fun s => s.person.dataHash = h)

/-! ## Analytics aggregations (`apps/server/src/routes/analytics.ts`)

The aggregations are read-only functions of the stored corpus, modelled over
the list of stored persons.  The 90/365-day `$match` windows compare epoch
day numbers.  `$sort` is modelled by insertion sort (ordering among ties is
irrelevant to every claim). -/

def insertSorted {α : Type} (le : α → α → Bool) (x : α) : List α → List α
  | [] => [x]
  | y :: rest => if le x y then x :: y :: rest else y :: insertSorted le x rest

def sortByBool {α : Type} (le : α → α → Bool) (l : List α) : List α :=
  l.foldr (insertSorted le) []

/-- `riskScore` projection of the hotspots pipeline:
`missingCount / (missingCount + foundCount + 1) * 100`. -/
def riskScoreFormula (missingCount foundCount : Nat) : ℚ :=
  (missingCount : ℚ) / ((missingCount : ℚ) + (foundCount : ℚ) + 1) * 100

/-- `resolutionRate` projection of the trends pipeline:
`$round [foundCount / (missingCount + foundCount + 1) * 100, 2]`. -/
def resolutionRateFormula (missingCount foundCount : Nat) : ℚ :=
  mongoRound2 ((foundCount : ℚ) / ((missingCount : ℚ) + (foundCount : ℚ) + 1) * 100)

/-- `$match` stage of `/api/analytics/hotspots`: status `missing` and
`lastSeenDate` within the last 90 days. -/
def hotspotMatch (now : Int) (corpus : List MissingPerson) : List MissingPerson :=
  corpus.filter (fun r => r.status = Status.missing ∧ now - 90 ≤ r.lastSeenDate)

structure HotspotGroup where
  state : String
  missingCount : Nat
  foundCount : Nat
  averageAge : ℚ
  latitude : Option ℚ
  longitude : Option ℚ
  latestDate : Int
  riskScore : ℚ
  genderDistribution : List Gender
deriving Repr, DecidableEq

/-- `$group` + `$project` for one `sourceState` key over the matched set.
`latitude`/`longitude` follow the source expression
`$avg ($arrayElemAt ['$centerLocation.coordinates', 1])`: element 1 of the
pushed array of coordinate pairs is the second matched record's pair, and
`$avg` over that two-element array is the mean of its components (`none`
when the group has fewer than two records, where `$arrayElemAt` is missing
and `$avg` is null). -/
def hotspotGroup (matched : List MissingPerson) (state : String) : HotspotGroup :=
  let grp := matched.filter (fun r => r.sourceState = state)
  let missingCount := grp.length
  let foundCount := grp.countP (fun r => r.status = Status.found)
  let coords := grp.map (fun r => (r.lonCoord, r.latCoord))
  { state := state
    missingCount := missingCount
    foundCount := foundCount
    averageAge := mongoRound1 ((grp.map (fun r => r.age)).sum / (grp.length : ℚ))
    latitude := (coords.get? 1).map (fun p => (p.1 + p.2) / 2)
    longitude := (coords.get? 0).map (fun p => (p.1 + p.2) / 2)
    latestDate := (grp.map (fun r => r.lastSeenDate)).foldr max 0
    riskScore := riskScoreFormula missingCount foundCount
    genderDistribution := grp.map (fun r => r.gender) }

/-- `/api/analytics/hotspots`: match, group by `sourceState`, project, sort
by `missingCount` descending, top 20. -/
def hotspots (now : Int) (corpus : List MissingPerson) : List HotspotGroup :=
  let matched := hotspotMatch now corpus
  let states := (matched.map (fun r => r.sourceState)).dedup
  (sortByBool (fun g1 g2 => g2.missingCount ≤ g1.missingCount)
    (states.map (hotspotGroup matched))).take 20

structure TrendEntry where
  year : Int
  month : Int
  missingCount : Nat
  foundCount : Nat
  totalCount : Nat
  avgAge : ℚ
  resolutionRate : ℚ
deriving Repr, DecidableEq

def yearOf (z : Int) : Int := (civilFromDays z).1

def monthOf (z : Int) : Int := (civilFromDays z).2.1

/-- `$match` stage of `/api/analytics/trends`: last 365 days. -/
def trendMatch (now : Int) (corpus : List MissingPerson) : List MissingPerson :=
  corpus.filter (fun r => now - 365 ≤ r.lastSeenDate)

/-- `$group` by `(year, month)` + `$project` for one month key. -/
def trendEntry (matched : List MissingPerson) (ym : Int × Int) : TrendEntry :=
  let grp := matched.filter (fun r => yearOf r.lastSeenDate = ym.1 ∧ monthOf r.lastSeenDate = ym.2)
  let missingCount := grp.countP (fun r => r.status = Status.missing)
  let foundCount := grp.countP (fun r => r.status = Status.found)
  { year := ym.1
    month := ym.2
    missingCount := missingCount
    foundCount := foundCount
    totalCount := grp.length
    avgAge := mongoRound1 ((grp.map (fun r => r.age)).sum / (grp.length : ℚ))
    resolutionRate := resolutionRateFormula missingCount foundCount }

/-- `/api/analytics/trends`: match, group by month, sort chronologically. -/
def trends (now : Int) (corpus : List MissingPerson) : List TrendEntry :=
  let matched := trendMatch now corpus
  let keys := (matched.map (fun r => (yearOf r.lastSeenDate, monthOf r.lastSeenDate))).dedup
  sortByBool (fun e1 e2 => e1.year < e2.year ∨ (e1.year = e2.year ∧ e1.month ≤ e2.month))
    (keys.map (trendEntry matched))

structure StatTotals where
  total : Nat
  missing : Nat
  found : Nat
  resolutionRate : ℚ
  averageAge : ℚ
deriving Repr, DecidableEq

def missingCountOf (corpus : List MissingPerson) : Nat :=
  corpus.countP (fun r => r.status = Status.missing)

def foundCountOf (corpus : List MissingPerson) : Nat :=
  corpus.countP (fun r => r.status = Status.found)

/-- The `totals` facet of `/api/analytics/statistics` as shaped by the route's
response: `resolutionRate = (found / (missing + found) * 100).toFixed(2)` —
the denominator has no `+1` term. -/
def statisticsTotals (corpus : List MissingPerson) : StatTotals :=
  let missing := missingCountOf corpus
  let found := foundCountOf corpus
  { total := corpus.length
    missing := missing
    found := found
    resolutionRate := toFixed2 ((found : ℚ) / ((missing : ℚ) + (found : ℚ)) * 100)
    averageAge := toFixed1 ((corpus.map (fun r => r.age)).sum / (corpus.length : ℚ)) }

/-! ## `HttpClient.fetch` (`apps/worker/src/utils/httpClient.ts`)

One attempt either throws (network error / timeout) or returns a status and a
body; only status 200 returns the body, any other status raises an
`HTTP_ERROR` that the retry loop also catches.  `SCRAPER_CONFIG.RETRY_ATTEMPTS
= 3` bounds the loop; exhaustion raises `FETCH_FAILED`. -/

inductive AttemptResult where
  | netError (message : String)
  | response (status : Nat) (body : String)
deriving Repr, DecidableEq

def RETRY_ATTEMPTS : Nat := 3

/-- The body an attempt successfully returns, if any. -/
def attemptSuccess : AttemptResult → Option String
  | .netError _ => none
  | .response status body => if status = 200 then some body else none

def fetchAux (oracle : Nat → AttemptResult) (attempt remaining : Nat) :
    Except String String :=
  match remaining with
  | 0 => .error "FETCH_FAILED"
  | remaining + 1 =>
    match attemptSuccess (oracle attempt) with
    | some body => .ok body
    | none => fetchAux oracle (attempt + 1) remaining

/-- `HttpClient.fetch(url)` given the outcome of each attempt. -/
def HttpClient.fetch (oracle : Nat → AttemptResult) : Except String String :=
  fetchAux oracle 0 RETRY_ATTEMPTS

/-! ## `OverwatchWorker.runETLPipeline` (`apps/worker/src/index.ts`)

Each source's `scrape()` either throws a whole-source error (for instance
`FETCH_FAILED` propagated from `HttpClient.fetch`) or yields candidate
records.  The orchestrator wraps each source in its own `try`: a failing
source gets its error recorded in its per-source result and the loop moves to
the next source; a succeeding source runs transform → validation logging →
`insertRecords` to completion against the shared store. -/

structure SourceRun where
  state : String
  scrapeResult : Except String (List Candidate)

structure SourceResult where
  state : String
  scraped : Nat
  valid : Nat
  invalid : Nat
  inserted : Nat
  duplicates : Nat
  error : Option String
deriving Repr, DecidableEq

def errorResult (state : String) (e : String) : SourceResult :=
  { state := state, scraped := 0, valid := 0, invalid := 0,
    inserted := 0, duplicates := 0, error := some e }

/-- One source's pipeline on a successful scrape:
transform → upsert, with no storage failures. -/
def runSourceOk (now : Int) (state : String) (raws : List Candidate)
    (db : List StoredRecord) : SourceResult × List StoredRecord :=
  let t := DataTransformer.transform raws
  let batch := DatabaseService.insertRecordsOk now (t.valid.map Candidate.asPerson) db
  ({ state := state, scraped := raws.length, valid := t.valid.length,
     invalid := t.invalid.length, inserted := batch.inserted,
     duplicates := batch.duplicates, error := none }, batch.db)

/-- `runETLPipeline`: the sources strictly in sequence, each in its own
`try`/`catch`, threading the store. -/
def OverwatchWorker.runETLPipeline (now : Int) :
    List SourceRun → List StoredRecord → List SourceResult × List StoredRecord
  | [], db => ([], db)
  | src :: rest, db =>
    match src.scrapeResult with
    | .error e =>
      let tail := OverwatchWorker.runETLPipeline now rest db
      (errorResult src.state e :: tail.1, tail.2)
    | .ok raws =>
      let step := runSourceOk now src.state raws db
      let tail := OverwatchWorker.runETLPipeline now rest step.2
      (step.1 :: tail.1, tail.2)

/-! ## Helper lemmas -/

lemma halfEvenRound_cases (q : ℚ) :
    halfEvenRound q = ⌊q⌋ ∨ halfEvenRound q = ⌊q⌋ + 1 := by
  simp only [halfEvenRound]
  split_ifs <;> simp

lemma halfEvenRound_nonneg {q : ℚ} (h : 0 ≤ q) : 0 ≤ halfEvenRound q := by
  have hf : (0 : ℤ) ≤ ⌊q⌋ := Int.floor_nonneg.mpr h
  rcases halfEvenRound_cases q with hc | hc <;> omega

lemma halfEvenRound_le {q : ℚ} {n : ℤ} (h : q < n) : halfEvenRound q ≤ n := by
  have hf : ⌊q⌋ < n := Int.floor_lt.mpr h
  rcases halfEvenRound_cases q with hc | hc <;> omega

lemma mongoRound2_mem_Icc {q : ℚ} (h0 : 0 ≤ q) (h1 : q < 100) :
    0 ≤ mongoRound2 q ∧ mongoRound2 q ≤ 100 := by
  have ha : (0 : ℤ) ≤ halfEvenRound (q * 100) :=
    halfEvenRound_nonneg (by positivity)
  have hb : halfEvenRound (q * 100) ≤ (10000 : ℤ) :=
    halfEvenRound_le (by push_cast; nlinarith)
  constructor
  · unfold mongoRound2
    have : (0 : ℚ) ≤ (halfEvenRound (q * 100) : ℚ) := by exact_mod_cast ha
    positivity
  · unfold mongoRound2
    have : (halfEvenRound (q * 100) : ℚ) ≤ 10000 := by exact_mod_cast hb
    linarith

/-! ## C2 -/

/-- C2: `generateDataHash` is a pure, deterministic function of exactly the
three fields `(name, lastSeenDate, sourceURL)`: it is the SHA-256 hex digest
of `name ++ "-" ++ <stringified lastSeenDate> ++ "-" ++ sourceURL`, repeated
computation on identical inputs is identical, and two records agreeing on
those three fields get the identical fingerprint whatever their other fields
hold. -/
theorem C2_generateDataHash_pure_three_fields :
    (∀ (name : String) (lastSeenDate : Int) (sourceURL : String),
      generateDataHash name lastSeenDate sourceURL =
        sha256Hex (name ++ "-" ++ jsDateToString lastSeenDate ++ "-" ++ sourceURL))
    ∧ (∀ (name : String) (lastSeenDate : Int) (sourceURL : String),
      generateDataHash name lastSeenDate sourceURL =
        generateDataHash name lastSeenDate sourceURL)
    ∧ (∀ p q : MissingPerson, p.name = q.name → p.lastSeenDate = q.lastSeenDate →
        p.sourceURL = q.sourceURL → p.hashOf = q.hashOf) := by
  refine ⟨fun _ _ _ => rfl, fun _ _ _ => rfl, ?_⟩
  intro p q h1 h2 h3
  unfold MissingPerson.hashOf
  rw [h1, h2, h3]

/-- C2 witness: two concrete records agreeing only on the three identifying
fields have the same fingerprint. -/
theorem C2_generateDataHash_pure_three_fields_witness :
    (⟨"Asha Rao", 29, .female, 20499, "Pune", 757139/10000, 197515/10000, .missing,
      none, "https://x.gov.in", "Maharashtra", ""⟩ : MissingPerson).hashOf =
    (⟨"Asha Rao", 64, .male, 20499, "Delhi", 0, 0, .found,
      some "seen", "https://x.gov.in", "Karnataka", "stale"⟩ : MissingPerson).hashOf :=
  C2_generateDataHash_pure_three_fields.2.2 _ _ rfl rfl rfl

/-! ## C7 -/

/-- C7: for all non-negative integer counts, the hotspot `riskScore` lies in
`[0, 100)`, the trend `resolutionRate` (rounded to 2 decimals) lies in
`[0, 100]`, and the shared denominator `missing + found + 1` is never zero. -/
theorem C7_rate_bounds (m f : ℕ) :
    0 ≤ riskScoreFormula m f ∧ riskScoreFormula m f < 100 ∧
    0 ≤ resolutionRateFormula m f ∧ resolutionRateFormula m f ≤ 100 ∧
    ((m : ℚ) + (f : ℚ) + 1 ≠ 0) := by
  have hm : (0 : ℚ) ≤ (m : ℚ) := Nat.cast_nonneg m
  have hf : (0 : ℚ) ≤ (f : ℚ) := Nat.cast_nonneg f
  have hd : (0 : ℚ) < (m : ℚ) + (f : ℚ) + 1 := by linarith
  have hrisk1 : (m : ℚ) / ((m : ℚ) + (f : ℚ) + 1) < 1 :=
    (div_lt_one hd).mpr (by linarith)
  have hres1 : (f : ℚ) / ((m : ℚ) + (f : ℚ) + 1) < 1 :=
    (div_lt_one hd).mpr (by linarith)
  have hres0 : (0 : ℚ) ≤ (f : ℚ) / ((m : ℚ) + (f : ℚ) + 1) * 100 := by positivity
  have hres100 : (f : ℚ) / ((m : ℚ) + (f : ℚ) + 1) * 100 < 100 := by linarith
  have hmr := mongoRound2_mem_Icc hres0 hres100
  have hr0 : 0 ≤ riskScoreFormula m f := by unfold riskScoreFormula; positivity
  have hr1 : riskScoreFormula m f < 100 := by unfold riskScoreFormula; linarith
  exact ⟨hr0, hr1, hmr.1, hmr.2, by linarith⟩

/-! ## C5 -/

/-- C5 counterexample: `"31/02/2024"` resolves to no valid calendar date
(there is no 31 February), yet `parseIndianDate` does not return `null`: the
numeric branch rolls the overflow over to 2 March 2024.  This refutes
"returns null exactly when the value resolves to no valid calendar date". -/
theorem C5_parseIndianDate_counterexample :
    parseIndianDate "31/02/2024" = some (daysFromCivil 2024 3 2) ∧
    isRealCalendarDate 31 2 2024 = false ∧
    parseIndianDate "31/02/2024" ≠ none := by
  refine ⟨by decide, by decide, by decide⟩

/-- C5 (amended): `parseIndianDate` accepts the three shapes `DD/MM/YYYY`,
`DD-MM-YYYY` and `DD MonthName YYYY` (short or long month name) and falls
back to generic date parsing when neither pattern matches; but the numeric
branch accepts any matched digits with JavaScript date rollover and never
returns `null`, so `null` is returned only when the month-name branch
resolves to no valid date or the generic fallback fails — not exactly when
the value resolves to no valid calendar date. -/
theorem C5_parseIndianDate_amended :
    (∀ (s : String) (d m y : ℕ),
      firstDMYMatch (normalizeText s) = some (d, m, y) →
      parseIndianDate s = some (jsDateCtorDays y ((m : Int) - 1) d))
    ∧ (∀ (s : String) (d : ℕ) (w : List Char) (y : ℕ),
      firstDMYMatch (normalizeText s) = none →
      firstDMonYMatch (normalizeText s) = some (d, w, y) →
      parseIndianDate s = jsParseMonthNameDate w d y)
    ∧ (∀ s : String,
      firstDMYMatch (normalizeText s) = none →
      firstDMonYMatch (normalizeText s) = none →
      parseIndianDate s = jsGenericDateParse (normalizeText s))
    ∧ parseIndianDate "15/02/2026" = some (daysFromCivil 2026 2 15)
    ∧ parseIndianDate "15-02-2026" = some (daysFromCivil 2026 2 15)
    ∧ parseIndianDate "15 Feb 2026" = some (daysFromCivil 2026 2 15)
    ∧ parseIndianDate "15 February 2026" = some (daysFromCivil 2026 2 15)
    ∧ parseIndianDate "2026-02-15" = some (daysFromCivil 2026 2 15)
    ∧ parseIndianDate "05 Foo 2024" = none
    ∧ parseIndianDate "not a date" = none := by
  refine ⟨?_, ?_, ?_, by decide, by decide, by decide, by decide, by decide,
    by decide, by decide⟩
  · intro s d m y h
    simp only [parseIndianDate, h]
  · intro s d w y h1 h2
    simp only [parseIndianDate, h1, h2]
  · intro s h1 h2
    simp only [parseIndianDate, h1, h2]

/-- C5 witness: the first branch of the amended theorem at `"15/02/2026"`. -/
theorem C5_parseIndianDate_amended_witness :
    parseIndianDate "15/02/2026" = some (jsDateCtorDays 2026 ((2 : Int) - 1) 15) :=
  C5_parseIndianDate_amended.1 "15/02/2026" 15 2 2026 (by decide)

/-! ## C8 -/

/-- C8: the statistics totals facet computes
`resolutionRate = (found / (missing + found) * 100).toFixed(2)` — with no
`+1` in the denominator — and on a corpus of 10 missing and 2 found records
it equals `16.67`. -/
theorem C8_statistics_resolutionRate :
    (∀ corpus : List MissingPerson,
      (statisticsTotals corpus).resolutionRate =
        toFixed2 ((foundCountOf corpus : ℚ) /
          ((missingCountOf corpus : ℚ) + (foundCountOf corpus : ℚ)) * 100))
    ∧ (∀ corpus : List MissingPerson,
      missingCountOf corpus = 10 → foundCountOf corpus = 2 →
      (statisticsTotals corpus).resolutionRate = 1667 / 100) := by
  constructor
  · intro corpus
    rfl
  · intro corpus hm hf
    have h : (statisticsTotals corpus).resolutionRate =
        toFixed2 ((foundCountOf corpus : ℚ) /
          ((missingCountOf corpus : ℚ) + (foundCountOf corpus : ℚ)) * 100) := rfl
    rw [h, hm, hf]
    have hfl : ⌊(((2 : ℕ) : ℚ) / (((10 : ℕ) : ℚ) + ((2 : ℕ) : ℚ)) * 100) * 100 + 1 / 2⌋ =
        (1667 : ℤ) := by
      rw [Int.floor_eq_iff]
      constructor <;> norm_num
    unfold toFixed2
    rw [hfl]
    norm_num

/-! ## C4 -/

/-- The claim's age-rejection trigger: age absent/not a number, or outside
`[0, 150]`. -/
def badAgeField (c : Candidate) : Prop :=
  match c.age with
  | none => True
  | some a => a < 0 ∨ 150 < a

/-- The claim's gender-rejection trigger: not one of the three enumerated
values. -/
def badGenderField (c : Candidate) : Prop :=
  ¬(c.gender = some "male" ∨ c.gender = some "female" ∨ c.gender = some "other")

lemma transform_foldl (rs : List Candidate) (acc : TransformResult) :
    rs.foldl
      (fun acc record =>
        let validation := validateExtractedData record
        if validation.valid then { acc with valid := acc.valid ++ [record] }
        else { acc with invalid := acc.invalid ++ [(record, validation.errors)] })
      acc =
    ⟨acc.valid ++ rs.filter (fun c => (validateExtractedData c).valid),
     acc.invalid ++ (rs.filter (fun c => !(validateExtractedData c).valid)).map
       (fun c => (c, (validateExtractedData c).errors))⟩ := by
  induction rs generalizing acc with
  | nil => simp
  | cons r rest ih =>
    simp only [List.foldl_cons, List.filter_cons]
    by_cases h : (validateExtractedData r).valid
    · simp [h, ih]
    · simp [h, ih]

lemma transform_spec (rs : List Candidate) :
    DataTransformer.transform rs =
      ⟨rs.filter (fun c => (validateExtractedData c).valid),
       (rs.filter (fun c => !(validateExtractedData c).valid)).map
         (fun c => (c, (validateExtractedData c).errors))⟩ := by
  unfold DataTransformer.transform
  rw [transform_foldl]
  simp

lemma validate_valid_iff_errors_nil (c : Candidate) :
    (validateExtractedData c).valid = true ↔ (validateExtractedData c).errors = [] := by
  show ((validateExtractedData c).errors).isEmpty = true ↔ _
  generalize (validateExtractedData c).errors = l
  cases l <;> simp

/-- C4: a candidate whose age is absent or outside `[0, 150]`, whose gender
is not one of the three enumerated values, or whose last-seen date resolved
to no valid date, is rejected as a whole: `valid = false` with a non-empty
error list; `valid` holds exactly when the error list is empty (never both a
valid record and errors); and the transformer routes every rejected record,
with its raw data and failed rules, into the invalid report and never into
the list handed to insertion. -/
theorem C4_validator_rejects_whole_record :
    (∀ c : Candidate,
      badAgeField c ∨ badGenderField c ∨ c.lastSeenDate = none →
      (validateExtractedData c).valid = false ∧ (validateExtractedData c).errors ≠ [])
    ∧ (∀ c : Candidate,
      ((validateExtractedData c).valid = true ↔ (validateExtractedData c).errors = []))
    ∧ (∀ rs : List Candidate,
      DataTransformer.transform rs =
        ⟨rs.filter (fun c => (validateExtractedData c).valid),
         (rs.filter (fun c => !(validateExtractedData c).valid)).map
           (fun c => (c, (validateExtractedData c).errors))⟩)
    ∧ (∀ (c : Candidate) (rs : List Candidate), c ∈ rs →
      (validateExtractedData c).valid = false →
      ((c, (validateExtractedData c).errors) ∈ (DataTransformer.transform rs).invalid ∧
        c ∉ (DataTransformer.transform rs).valid)) := by
  have hbad : ∀ c : Candidate,
      badAgeField c ∨ badGenderField c ∨ c.lastSeenDate = none →
      (validateExtractedData c).errors ≠ [] := by
    intro c h heq
    simp only [validateExtractedData, List.append_eq_nil] at heq
    obtain ⟨⟨⟨⟨h1, h2⟩, h3⟩, h4⟩, h5⟩ := heq
    rcases h with hAge | hGen | hDate
    · simp only [badAgeField] at hAge
      cases hca : c.age with
      | none => rw [hca] at h2; simp at h2
      | some a =>
        rw [hca] at hAge h2
        dsimp only at hAge h2
        rw [if_pos hAge] at h2
        simp at h2
    · rw [if_neg hGen] at h3
      simp at h3
    · rw [if_pos hDate] at h4
      simp at h4
  refine ⟨?_, validate_valid_iff_errors_nil, transform_spec, ?_⟩
  · intro c h
    have hne := hbad c h
    refine ⟨?_, hne⟩
    cases hv : (validateExtractedData c).valid with
    | false => rfl
    | true => exact absurd ((validate_valid_iff_errors_nil c).mp hv) hne
  · intro c rs hmem hval
    rw [transform_spec]
    constructor
    · exact List.mem_map.mpr
        ⟨c, List.mem_filter.mpr ⟨hmem, by simp [hval]⟩, rfl⟩
    · intro hc
      have := (List.mem_filter.mp hc).2
      rw [hval] at this
      simp at this

/-- C4 witness: the age-200 candidate of the spec scenario is rejected with
a non-empty error list. -/
theorem C4_validator_rejects_whole_record_witness :
    (validateExtractedData
      ⟨some "Ravi Kumar", some 200, some "male", some 20499, some "Pune",
       none, none, some .missing, none, some "https://x.gov.in",
       some "Maharashtra", none⟩).valid = false ∧
    (validateExtractedData
      ⟨some "Ravi Kumar", some 200, some "male", some 20499, some "Pune",
       none, none, some .missing, none, some "https://x.gov.in",
       some "Maharashtra", none⟩).errors ≠ [] :=
  C4_validator_rejects_whole_record.1 _ (Or.inl (by right; norm_num))

/-! ## C1 -/

lemma processRecord_sum (now : Int) (st : BatchState) (r : MissingPerson) (fl : DbFail)
    (h : fl.atUpdate = false) :
    (processRecord now st r fl).inserted + (processRecord now st r fl).duplicates +
      (processRecord now st r fl).failures =
    st.inserted + st.duplicates + st.failures + 1 := by
  unfold processRecord
  by_cases h1 : fl.atFind
  · simp [h1]
    omega
  · cases hfind : findByHash st.db r.dataHash with
    | none =>
      by_cases h3 : fl.atCreate
      · simp [h1, hfind, h3]
        omega
      · simp [h1, hfind, h3]
        omega
    | some ex =>
      by_cases h2 : r.status = ex.person.status
      · simp [h1, hfind, h2]
        omega
      · simp [h1, hfind, h2, h]
        omega

lemma insertRecords_sum (now : Int) (records : List MissingPerson) :
    ∀ (fails : List DbFail) (st : BatchState),
    (∀ fl ∈ fails, fl.atUpdate = false) →
    (DatabaseService.insertRecords now records fails st).inserted +
      (DatabaseService.insertRecords now records fails st).duplicates +
      (DatabaseService.insertRecords now records fails st).failures =
    st.inserted + st.duplicates + st.failures + records.length := by
  induction records with
  | nil => intro fails st h; simp [DatabaseService.insertRecords]
  | cons r rs ih =>
    intro fails st h
    have hHead : (fails.headD noFail).atUpdate = false := by
      cases fails with
      | nil => rfl
      | cons f fs => exact h f (List.mem_cons_self f fs)
    have hTail : ∀ fl ∈ fails.tail, fl.atUpdate = false := fun fl hfl =>
      h fl (List.mem_of_mem_tail hfl)
    simp only [DatabaseService.insertRecords]
    rw [ih fails.tail _ hTail, processRecord_sum now st r _ hHead]
    simp only [List.length_cons]
    omega

/-- C1 counterexample to the accounting identity as claimed: a batch of one
record whose fingerprint already exists with a different status, where the
`updateOne` call throws.  `duplicates++` has already run when the throw is
caught and logged, so the record is counted twice and
`inserted + duplicates + failures = 2 ≠ 1`. -/
theorem C1_insertRecords_accounting_counterexample :
    (DatabaseService.insertRecords 1
        [⟨"A", 20, .male, 0, "L", 0, 0, .found, none, "u", "s", "h1"⟩]
        [⟨false, true, false⟩]
        (initBatch [createStored ⟨"A", 20, .male, 0, "L", 0, 0, .missing, none, "u", "s", "h1"⟩ 0])).inserted +
      (DatabaseService.insertRecords 1
        [⟨"A", 20, .male, 0, "L", 0, 0, .found, none, "u", "s", "h1"⟩]
        [⟨false, true, false⟩]
        (initBatch [createStored ⟨"A", 20, .male, 0, "L", 0, 0, .missing, none, "u", "s", "h1"⟩ 0])).duplicates +
      (DatabaseService.insertRecords 1
        [⟨"A", 20, .male, 0, "L", 0, 0, .found, none, "u", "s", "h1"⟩]
        [⟨false, true, false⟩]
        (initBatch [createStored ⟨"A", 20, .male, 0, "L", 0, 0, .missing, none, "u", "s", "h1"⟩ 0])).failures = 2 ∧
    [(⟨"A", 20, .male, 0, "L", 0, 0, .found, none, "u", "s", "h1"⟩ : MissingPerson)].length = 1 := by
  constructor
  · decide
  · rfl

/-- C1 (amended): each record is processed by hash lookup with the claimed
insert / status-refresh / skip branches, per-record failures are caught
without aborting the batch, and `inserted + duplicates + logged-failures =
number of input records` holds provided no failure occurs during a
status-refresh write; a record whose status-refresh write throws is counted
both as a duplicate and as a logged failure. -/
theorem C1_insertRecords_accounting_amended :
    (∀ (now : Int) (records : List MissingPerson) (fails : List DbFail)
        (db : List StoredRecord),
      (∀ fl ∈ fails, fl.atUpdate = false) →
      (DatabaseService.insertRecords now records fails (initBatch db)).inserted +
        (DatabaseService.insertRecords now records fails (initBatch db)).duplicates +
        (DatabaseService.insertRecords now records fails (initBatch db)).failures =
        records.length)
    ∧ (∀ (now : Int) (st : BatchState) (r : MissingPerson),
      findByHash st.db r.dataHash = none →
      processRecord now st r noFail =
        { st with inserted := st.inserted + 1, db := st.db ++ [createStored r now] })
    ∧ (∀ (now : Int) (st : BatchState) (r : MissingPerson) (ex : StoredRecord),
      findByHash st.db r.dataHash = some ex → r.status = ex.person.status →
      processRecord now st r noFail = { st with duplicates := st.duplicates + 1 })
    ∧ (∀ (now : Int) (st : BatchState) (r : MissingPerson) (ex : StoredRecord),
      findByHash st.db r.dataHash = some ex → r.status ≠ ex.person.status →
      processRecord now st r noFail =
        { st with duplicates := st.duplicates + 1,
                  db := updateFirstByHash st.db r.dataHash r.status now })
    ∧ (∀ (s : StoredRecord) (stt : Status) (now : Int),
      (refreshStatus s stt now).person.name = s.person.name ∧
      (refreshStatus s stt now).person.age = s.person.age ∧
      (refreshStatus s stt now).person.gender = s.person.gender ∧
      (refreshStatus s stt now).person.lastSeenDate = s.person.lastSeenDate ∧
      (refreshStatus s stt now).person.lastKnownLocation = s.person.lastKnownLocation ∧
      (refreshStatus s stt now).person.dataHash = s.person.dataHash ∧
      (refreshStatus s stt now).createdAt = s.createdAt ∧
      (refreshStatus s stt now).person.status = stt ∧
      (refreshStatus s stt now).updatedAt = now) := by
  refine ⟨?_, ?_, ?_, ?_, fun s stt now => ⟨rfl, rfl, rfl, rfl, rfl, rfl, rfl, rfl, rfl⟩⟩
  · intro now records fails db h
    rw [insertRecords_sum now records fails (initBatch db) h]
    simp [initBatch]
  · intro now st r hfind
    simp [processRecord, noFail, hfind]
  · intro now st r ex hfind hstat
    simp [processRecord, noFail, hfind, hstat]
  · intro now st r ex hfind hstat
    simp [processRecord, noFail, hfind, hstat]

/-- C1 witness: the accounting identity of the amended theorem at a concrete
one-record batch with no storage failures. -/
theorem C1_insertRecords_accounting_witness :
    (DatabaseService.insertRecords 0
        [⟨"B", 7, .female, 3, "P", 0, 0, .missing, none, "u2", "s2", "h2"⟩]
        [noFail] (initBatch [])).inserted +
      (DatabaseService.insertRecords 0
        [⟨"B", 7, .female, 3, "P", 0, 0, .missing, none, "u2", "s2", "h2"⟩]
        [noFail] (initBatch [])).duplicates +
      (DatabaseService.insertRecords 0
        [⟨"B", 7, .female, 3, "P", 0, 0, .missing, none, "u2", "s2", "h2"⟩]
        [noFail] (initBatch [])).failures = 1 :=
  C1_insertRecords_accounting_amended.1 0 _ [noFail] [] (by decide)

/-! ## C3 and C10 -/

lemma findByHash_append (db1 db2 : List StoredRecord) (h : String)
    (hnone : findByHash db1 h = none) :
    findByHash (db1 ++ db2) h = findByHash db2 h := by
  unfold findByHash at *
  rw [List.find?_eq_none] at hnone
  induction db1 with
  | nil => simp
  | cons s rest ih =>
    rw [List.cons_append, List.find?_cons_of_neg, ih]
    · intro x hx
      exact hnone x (List.mem_cons_of_mem s hx)
    · exact hnone s (List.mem_cons_self s rest)

lemma findByHash_singleton_self (s : StoredRecord) :
    findByHash [s] s.person.dataHash = some s := by
  unfold findByHash
  rw [List.find?_cons_of_pos]
  simp

lemma updateFirstByHash_append (db1 db2 : List StoredRecord) (h : String)
    (stt : Status) (now : Int) (hnone : findByHash db1 h = none) :
    updateFirstByHash (db1 ++ db2) h stt now = db1 ++ updateFirstByHash db2 h stt now := by
  unfold findByHash at hnone
  rw [List.find?_eq_none] at hnone
  induction db1 with
  | nil => simp
  | cons s rest ih =>
    rw [List.cons_append, updateFirstByHash]
    have hs : ¬s.person.dataHash = h := by
      have := hnone s (List.mem_cons_self s rest)
      simpa using this
    rw [if_neg hs, ih]
    · simp
    · intro x hx
      exact hnone x (List.mem_cons_of_mem s hx)

lemma hashCount_nil_of_find_none {db : List StoredRecord} {h : String}
    (hnone : findByHash db h = none) : hashCount db h = 0 := by
  unfold findByHash at hnone
  unfold hashCount
  rw [List.find?_eq_none] at hnone
  rw [List.countP_eq_zero]
  exact hnone

lemma insertRecordsOk_single_new (now : Int) (r : MissingPerson)
    (db0 : List StoredRecord) (hfind : findByHash db0 r.dataHash = none) :
    DatabaseService.insertRecordsOk now [r] db0 =
      ⟨db0 ++ [createStored r now], 1, 0, 0⟩ := by
  simp [DatabaseService.insertRecordsOk, DatabaseService.insertRecords,
    processRecord, noFail, hfind, initBatch]

/-- C3: re-ingesting a record with unchanged identifying fields and unchanged
status performs no write, is counted as a duplicate (and not as an
insertion), leaves exactly one stored record with that fingerprint, and that
record still carries the original `createdAt`. -/
theorem C3_reingestion_idempotent
    (r r2 : MissingPerson) (db0 : List StoredRecord) (now1 now2 : Int)
    (hh1 : r.dataHash = r.hashOf)
    (hn : r2.name = r.name) (hd : r2.lastSeenDate = r.lastSeenDate)
    (hu : r2.sourceURL = r.sourceURL) (hs : r2.status = r.status)
    (hh2 : r2.dataHash = r2.hashOf)
    (h0 : findByHash db0 r.dataHash = none) :
    (DatabaseService.insertRecordsOk now1 [r] db0).db = db0 ++ [createStored r now1] ∧
    (DatabaseService.insertRecordsOk now2 [r2]
        (DatabaseService.insertRecordsOk now1 [r] db0).db).db =
      (DatabaseService.insertRecordsOk now1 [r] db0).db ∧
    (DatabaseService.insertRecordsOk now2 [r2]
        (DatabaseService.insertRecordsOk now1 [r] db0).db).duplicates = 1 ∧
    (DatabaseService.insertRecordsOk now2 [r2]
        (DatabaseService.insertRecordsOk now1 [r] db0).db).inserted = 0 ∧
    hashCount (DatabaseService.insertRecordsOk now2 [r2]
        (DatabaseService.insertRecordsOk now1 [r] db0).db).db r.dataHash = 1 ∧
    findByHash (DatabaseService.insertRecordsOk now2 [r2]
        (DatabaseService.insertRecordsOk now1 [r] db0).db).db r.dataHash =
      some (createStored r now1) := by
  have hhash : r2.dataHash = r.dataHash := by
    rw [hh2, hh1]
    unfold MissingPerson.hashOf
    rw [hn, hd, hu]
  have hstep1 := insertRecordsOk_single_new now1 r db0 h0
  have hdb1 : (DatabaseService.insertRecordsOk now1 [r] db0).db =
      db0 ++ [createStored r now1] := by rw [hstep1]
  have hfind1 : findByHash (db0 ++ [createStored r now1]) r2.dataHash =
      some (createStored r now1) := by
    rw [hhash, findByHash_append db0 _ _ h0]
    exact findByHash_singleton_self (createStored r now1)
  have hstat : ¬(r2.status ≠ (createStored r now1).person.status) := by
    simp [createStored, hs]
  have hstep2 : DatabaseService.insertRecordsOk now2 [r2] (db0 ++ [createStored r now1]) =
      ⟨db0 ++ [createStored r now1], 0, 1, 0⟩ := by
    simp only [DatabaseService.insertRecordsOk, List.map, DatabaseService.insertRecords,
      initBatch, processRecord, noFail, hfind1, List.headD, List.tail]
    rw [if_neg hstat]
    simp
  have hfindr : findByHash (db0 ++ [createStored r now1]) r.dataHash =
      some (createStored r now1) := by
    rw [findByHash_append db0 _ _ h0]
    exact findByHash_singleton_self (createStored r now1)
  refine ⟨hdb1, ?_, ?_, ?_, ?_, ?_⟩
  · rw [hdb1, hstep2]
  · rw [hdb1, hstep2]
  · rw [hdb1, hstep2]
  · rw [hdb1, hstep2]
    show hashCount (db0 ++ [createStored r now1]) r.dataHash = 1
    unfold hashCount
    rw [List.countP_append]
    rw [List.countP_eq_zero.mpr]
    · simp [createStored, List.countP_cons]
    · unfold findByHash at h0
      rw [List.find?_eq_none] at h0
      exact h0
  · rw [hdb1, hstep2]
    exact hfindr

/-- The canonical scenario record: Asha Rao, as the scrapers would emit it,
with the fingerprint attached by `generateDataHash`. -/
def ashaRecord : MissingPerson :=
  ⟨"Asha Rao", 29, .female, daysFromCivil 2026 2 15, "Pune",
   757139/10000, 197515/10000, .missing, none,
   "https://x.gov.in", "Maharashtra",
   generateDataHash "Asha Rao" (daysFromCivil 2026 2 15) "https://x.gov.in"⟩

/-- C3 witness: ingesting the Asha Rao record twice unchanged — the second
run reports one duplicate and storage still holds exactly one record with
its fingerprint, created at the first run's time. -/
theorem C3_reingestion_idempotent_witness :
    (DatabaseService.insertRecordsOk 200 [ashaRecord]
        (DatabaseService.insertRecordsOk 100 [ashaRecord] []).db).duplicates = 1 ∧
    (DatabaseService.insertRecordsOk 200 [ashaRecord]
        (DatabaseService.insertRecordsOk 100 [ashaRecord] []).db).inserted = 0 ∧
    hashCount (DatabaseService.insertRecordsOk 200 [ashaRecord]
        (DatabaseService.insertRecordsOk 100 [ashaRecord] []).db).db
      ashaRecord.dataHash = 1 ∧
    findByHash (DatabaseService.insertRecordsOk 200 [ashaRecord]
        (DatabaseService.insertRecordsOk 100 [ashaRecord] []).db).db
      ashaRecord.dataHash = some (createStored ashaRecord 100) :=
  have h := C3_reingestion_idempotent ashaRecord ashaRecord [] 100 200
    rfl rfl rfl rfl rfl rfl rfl
  ⟨h.2.2.1, h.2.2.2.1, h.2.2.2.2.1, h.2.2.2.2.2⟩

/-- C10: two records that agree on `(name, lastSeenDate, sourceURL)` but may
differ in any other field get the identical fingerprint; after the first is
inserted, upserting the second counts it as a duplicate (never an
insertion), and the stored record keeps every field of the first record —
only `status` (and `updatedAt`, when the status differed) is taken from the
second. -/
theorem C10_fingerprint_conflation
    (r r2 : MissingPerson) (db0 : List StoredRecord) (now1 now2 : Int)
    (hh1 : r.dataHash = r.hashOf)
    (hn : r2.name = r.name) (hd : r2.lastSeenDate = r.lastSeenDate)
    (hu : r2.sourceURL = r.sourceURL)
    (hh2 : r2.dataHash = r2.hashOf)
    (h0 : findByHash db0 r.dataHash = none) :
    r2.hashOf = r.hashOf ∧
    (DatabaseService.insertRecordsOk now2 [r2]
        (DatabaseService.insertRecordsOk now1 [r] db0).db).inserted = 0 ∧
    (DatabaseService.insertRecordsOk now2 [r2]
        (DatabaseService.insertRecordsOk now1 [r] db0).db).duplicates = 1 ∧
    (DatabaseService.insertRecordsOk now2 [r2]
        (DatabaseService.insertRecordsOk now1 [r] db0).db).db =
      db0 ++ [⟨{ r with status := r2.status }, now1,
        if r2.status = r.status then now1 else now2⟩] := by
  have hhashOf : r2.hashOf = r.hashOf := by
    unfold MissingPerson.hashOf
    rw [hn, hd, hu]
  have hhash : r2.dataHash = r.dataHash := by rw [hh2, hh1, hhashOf]
  have hdb1 : (DatabaseService.insertRecordsOk now1 [r] db0).db =
      db0 ++ [createStored r now1] := by
    rw [insertRecordsOk_single_new now1 r db0 h0]
  have hfind1 : findByHash (db0 ++ [createStored r now1]) r2.dataHash =
      some (createStored r now1) := by
    rw [hhash, findByHash_append db0 _ _ h0]
    exact findByHash_singleton_self (createStored r now1)
  rw [hdb1]
  by_cases hst : r2.status = r.status
  · have hstat : ¬(r2.status ≠ (createStored r now1).person.status) := by
      simp [createStored, hst]
    have hstep2 : DatabaseService.insertRecordsOk now2 [r2] (db0 ++ [createStored r now1]) =
        ⟨db0 ++ [createStored r now1], 0, 1, 0⟩ := by
      simp only [DatabaseService.insertRecordsOk, List.map, DatabaseService.insertRecords,
        initBatch, processRecord, noFail, hfind1, List.headD, List.tail]
      rw [if_neg hstat]
      simp
    refine ⟨hhashOf, ?_, ?_, ?_⟩
    · rw [hstep2]
    · rw [hstep2]
    · rw [hstep2]
      rw [if_pos hst, hst]
      rfl
  · have hstat : r2.status ≠ (createStored r now1).person.status := by
      simp [createStored, hst]
    have hstep2 : DatabaseService.insertRecordsOk now2 [r2] (db0 ++ [createStored r now1]) =
        ⟨updateFirstByHash (db0 ++ [createStored r now1]) r2.dataHash r2.status now2,
         0, 1, 0⟩ := by
      simp only [DatabaseService.insertRecordsOk, List.map, DatabaseService.insertRecords,
        initBatch, processRecord, noFail, hfind1, List.headD, List.tail]
      rw [if_pos hstat]
      simp
    refine ⟨hhashOf, ?_, ?_, ?_⟩
    · rw [hstep2]
    · rw [hstep2]
    · rw [hstep2]
      show updateFirstByHash (db0 ++ [createStored r now1]) r2.dataHash r2.status now2 = _
      rw [hhash, updateFirstByHash_append db0 _ _ _ _ h0]
      rw [if_neg hst]
      unfold updateFirstByHash
      rw [if_pos (show (createStored r now1).person.dataHash = r.dataHash from rfl)]
      rfl

/-- A record agreeing with `ashaRecord` on the three identifying fields but
differing in age, location, coordinates and description; the scrapers give
it the same fingerprint. -/
def ashaVariantRecord : MissingPerson :=
  ⟨"Asha Rao", 41, .female, daysFromCivil 2026 2 15, "Mumbai",
   729, 19, .missing, some "different report",
   "https://x.gov.in", "Maharashtra",
   generateDataHash "Asha Rao" (daysFromCivil 2026 2 15) "https://x.gov.in"⟩

/-- C10 witness: upserting the variant record after the original counts it
as a duplicate and stores none of its differing field values. -/
theorem C10_fingerprint_conflation_witness :
    ashaVariantRecord.hashOf = ashaRecord.hashOf ∧
    (DatabaseService.insertRecordsOk 200 [ashaVariantRecord]
        (DatabaseService.insertRecordsOk 100 [ashaRecord] []).db).inserted = 0 ∧
    (DatabaseService.insertRecordsOk 200 [ashaVariantRecord]
        (DatabaseService.insertRecordsOk 100 [ashaRecord] []).db).duplicates = 1 ∧
    (DatabaseService.insertRecordsOk 200 [ashaVariantRecord]
        (DatabaseService.insertRecordsOk 100 [ashaRecord] []).db).db =
      [] ++ [⟨{ ashaRecord with status := ashaVariantRecord.status }, 100,
        if ashaVariantRecord.status = ashaRecord.status then 100 else 200⟩] :=
  C10_fingerprint_conflation ashaRecord ashaVariantRecord [] 100 200
    rfl rfl rfl rfl rfl rfl

/-! ## C6 -/

lemma mem_insertSorted {α : Type} (le : α → α → Bool) (x a : α) (l : List α) :
    a ∈ insertSorted le x l ↔ a = x ∨ a ∈ l := by
  induction l with
  | nil => simp [insertSorted]
  | cons y rest ih =>
    unfold insertSorted
    by_cases h : le x y
    · simp [h]
    · rw [if_neg h]
      simp only [List.mem_cons, ih]
      tauto

lemma mem_sortByBool {α : Type} (le : α → α → Bool) (a : α) (l : List α) :
    a ∈ sortByBool le l ↔ a ∈ l := by
  induction l with
  | nil => simp [sortByBool]
  | cons y rest ih =>
    show a ∈ insertSorted le y (sortByBool le rest) ↔ _
    rw [mem_insertSorted]
    simp [ih]

/-- C6: the hotspots pipeline filters to `status = missing` (within the last
90 days) before grouping, and counts `foundCount` inside that same filtered
set, so every produced hotspot group has `foundCount = 0`. -/
theorem C6_hotspot_foundCount_zero (now : Int) (corpus : List MissingPerson)
    (g : HotspotGroup) (hg : g ∈ hotspots now corpus) : g.foundCount = 0 := by
  simp only [hotspots] at hg
  have hg2 := List.mem_of_mem_take hg
  rw [mem_sortByBool] at hg2
  obtain ⟨st, _, hgeq⟩ := List.mem_map.mp hg2
  subst hgeq
  show ((hotspotMatch now corpus).filter (fun r => r.sourceState = st)).countP
      (fun r => r.status = Status.found) = 0
  rw [List.countP_eq_zero]
  intro x hx
  have hx1 := (List.mem_filter.mp hx).1
  have hx2 := (List.mem_filter.mp hx1).2
  simp only [hotspotMatch, decide_eq_true_eq] at hx2
  simp [hx2.1]

/-- C6 witness: a concrete one-record corpus produces a hotspot group whose
`foundCount` is zero. -/
theorem C6_hotspot_foundCount_zero_witness :
    (hotspotGroup
      (hotspotMatch 20500
        [⟨"Asha Rao", 10, .female, 20499, "Pune", 7571/100, 1975/100, .missing,
          none, "https://x.gov.in", "Maharashtra", "hh"⟩])
      "Maharashtra").foundCount = 0 :=
  C6_hotspot_foundCount_zero 20500 _ _
    (by
      have h : hotspots 20500
          [⟨"Asha Rao", 10, .female, 20499, "Pune", 7571/100, 1975/100, .missing,
            none, "https://x.gov.in", "Maharashtra", "hh"⟩] =
          [hotspotGroup
            (hotspotMatch 20500
              [⟨"Asha Rao", 10, .female, 20499, "Pune", 7571/100, 1975/100, .missing,
                none, "https://x.gov.in", "Maharashtra", "hh"⟩])
            "Maharashtra"] := rfl
      rw [h]
      exact List.mem_singleton.mpr rfl)

/-! ## C9 -/

lemma runETL_length (now : Int) (sources : List SourceRun) :
    ∀ db : List StoredRecord,
    (OverwatchWorker.runETLPipeline now sources db).1.length = sources.length := by
  induction sources with
  | nil => intro db; simp [OverwatchWorker.runETLPipeline]
  | cons s rest ih =>
    intro db
    obtain ⟨stt, res⟩ := s
    cases res with
    | error e => simp [OverwatchWorker.runETLPipeline, ih]
    | ok raws => simp [OverwatchWorker.runETLPipeline, ih]

/-- C9: whole-source failures are isolated.  Every source yields a
per-source result; a source whose scrape stage throws contributes an error
result carrying its error and leaves the store untouched, while the
orchestrator still runs the full transform→upsert sequence for every
remaining source; and `HttpClient.fetch` raises `FETCH_FAILED` exactly on
retry exhaustion (three attempts with no 200 response) while a successful
attempt returns the body. -/
theorem C9_source_failure_isolated :
    (∀ (now : Int) (sources : List SourceRun) (db : List StoredRecord),
      (OverwatchWorker.runETLPipeline now sources db).1.length = sources.length)
    ∧ (∀ (now : Int) (state e : String) (rest : List SourceRun) (db : List StoredRecord),
      OverwatchWorker.runETLPipeline now (⟨state, .error e⟩ :: rest) db =
        (errorResult state e :: (OverwatchWorker.runETLPipeline now rest db).1,
         (OverwatchWorker.runETLPipeline now rest db).2) ∧
      (errorResult state e).error = some e)
    ∧ (∀ (now : Int) (state : String) (raws : List Candidate) (rest : List SourceRun)
        (db : List StoredRecord),
      OverwatchWorker.runETLPipeline now (⟨state, .ok raws⟩ :: rest) db =
        ((runSourceOk now state raws db).1 ::
          (OverwatchWorker.runETLPipeline now rest (runSourceOk now state raws db).2).1,
         (OverwatchWorker.runETLPipeline now rest (runSourceOk now state raws db).2).2))
    ∧ (∀ oracle : Nat → AttemptResult,
      (∀ i, i < RETRY_ATTEMPTS → attemptSuccess (oracle i) = none) →
      HttpClient.fetch oracle = .error "FETCH_FAILED")
    ∧ (∀ (oracle : Nat → AttemptResult) (body : String),
      attemptSuccess (oracle 0) = some body → HttpClient.fetch oracle = .ok body) := by
  refine ⟨runETL_length, ?_, ?_, ?_, ?_⟩
  · intro now state e rest db
    exact ⟨rfl, rfl⟩
  · intro now state raws rest db
    rfl
  · intro oracle h
    have h0 := h 0 (by decide)
    have h1 := h 1 (by decide)
    have h2 := h 2 (by decide)
    simp [HttpClient.fetch, RETRY_ATTEMPTS, fetchAux, h0, h1, h2]
  · intro oracle body hb
    simp [HttpClient.fetch, RETRY_ATTEMPTS, fetchAux, hb]

/-- C9 witness: an oracle whose every attempt is a network error exhausts
the three retries and fails with `FETCH_FAILED`. -/
theorem C9_source_failure_isolated_witness :
    HttpClient.fetch (fun _ => .netError "timeout") = .error "FETCH_FAILED" :=
  C9_source_failure_isolated.2.2.2.1 (fun _ => .netError "timeout")
    (fun _ _ => rfl)

/-- C8 witness: a concrete corpus of 10 missing and 2 found records has
`resolutionRate = 16.67`. -/
theorem C8_statistics_resolutionRate_witness :
    (statisticsTotals
      (List.replicate 10
        (⟨"M", 20, .male, 0, "L", 0, 0, .missing, none, "u", "s", "hm"⟩ : MissingPerson) ++
       List.replicate 2
        (⟨"F", 30, .female, 0, "L", 0, 0, .found, none, "u", "s", "hf"⟩ : MissingPerson))).resolutionRate =
      1667 / 100 :=
  C8_statistics_resolutionRate.2 _ (by decide) (by decide)
